import Mathlib

/-!
Verification of the `lvgl-codegen` wrapper generator
(`src/lvgl-codegen/src/lib.rs`).

The generator turns a list of foreign C function declarations into Rust
wrapper code.  This file gives a shallow embedding of its data model
(`LvType`, `LvArg`, `LvFunc`, `LvWidget`), of the text-shape classifier
predicates, of widget discovery and method grouping
(`CodeGen::get_widget_names`, `CodeGen::extract_widgets`) and of the
lowering functions (`LvType::code`, `LvFunc::code`, `LvWidget::code`).
Generated token streams are embedded as structured values (`GenFn`,
`Stmt`, `WidgetCode`) that record exactly the information the emitted
code carries.  Strings are handled through their character lists and all
string operations used by the source (`starts_with`, `contains`,
`replace`) are given executable translations below.

Modelling notes:
* `syn`/`quote` re-parsing of literal type text (`parse_str`, used with
  `.expect(...)` in the source) is modelled as total: on the literal
  texts produced by printing a parsed type it succeeds by round-trip,
  and no property below exercises the failure (panic) path.  The parsed
  type is kept as its literal text.
* `format_ident!` keyword escaping (`r#...`) is not modelled; identifiers
  stay plain strings.
* diagnostic `println!` calls are dropped.
-/

/-! ### Character-list string primitives

Executable translations of the string operations the Rust source uses. -/

/-- `startsWithL p s` is Rust `s.starts_with(p)` on character lists. -/
def startsWithL : List Char → List Char → Bool
  | [], _ => true
  | _ :: _, [] => false
  | p :: ps, c :: cs => p = c && startsWithL ps cs

/-- `occursIn pat s` is Rust `s.contains(pat)`: `pat` occurs as a
contiguous substring of `s`. -/
def occursIn (pat : List Char) : List Char → Bool
  | [] => startsWithL pat []
  | c :: cs => startsWithL pat (c :: cs) || occursIn pat cs

/-- Fuel-driven core of Rust `str::replace(pat, "")`: scan left to right,
whenever `pat` is a prefix of the rest drop it, otherwise keep one
character and continue.  `fuel = s.length` always suffices because every
step consumes fuel and the scan never grows the input. -/
def repAux (pat : List Char) : Nat → List Char → List Char
  | _, [] => []
  | 0, s => s
  | fuel + 1, c :: cs =>
    if startsWithL pat (c :: cs) then repAux pat fuel (List.drop pat.length (c :: cs))
    else c :: repAux pat fuel cs

/-- Rust `s.replace(pat, "")`: removes every non-overlapping occurrence
of `pat` from `s`, scanning left to right. -/
def strReplaceAll (s pat : String) : String :=
  ⟨repAux pat.data s.data.length s.data⟩

/-- `stripPre p s` returns `some r` iff `s = p ++ r`. -/
def stripPre : List Char → List Char → Option (List Char)
  | [], s => some s
  | _ :: _, [] => none
  | p :: ps, c :: cs => if p = c then stripPre ps cs else none

/-- `stripSuf suf s` returns `some r` iff `s = r ++ suf`. -/
def stripSuf (suf s : List Char) : Option (List Char) :=
  (stripPre suf.reverse s.reverse).map List.reverse

/-! ### Data model (`LvType`, `LvArg`, `LvFunc`, `LvWidget`) -/

/-- `LvType` from the source: a type is carried as its literal token
text (e.g. `"* mut lv_obj_t"`).  The cached `syn::Type` (`_r_type`)
adds no information over the literal and is omitted. -/
structure LvType where
  literal_name : String
deriving DecidableEq, Repr

/-- `LvType::is_const`: the literal text begins with `"const "`. -/
def LvType.is_const (t : LvType) : Bool :=
  startsWithL "const ".data t.literal_name.data

/-- `LvType::is_const_str`. -/
def LvType.is_const_str (t : LvType) : Bool :=
  t.literal_name == "* const cty :: c_char"

/-- `LvType::is_mut_str`. -/
def LvType.is_mut_str (t : LvType) : Bool :=
  t.literal_name == "* mut cty :: c_char"

/-- `LvType::is_const_native_object` (two historical spellings). -/
def LvType.is_const_native_object (t : LvType) : Bool :=
  t.literal_name == "* const lv_obj_t" || t.literal_name == "* const _lv_obj_t"

/-- `LvType::is_mut_native_object` (two historical spellings). -/
def LvType.is_mut_native_object (t : LvType) : Bool :=
  t.literal_name == "* mut lv_obj_t" || t.literal_name == "* mut _lv_obj_t"

/-- `LvType::is_pointer`: the literal text begins with `*`. -/
def LvType.is_pointer (t : LvType) : Bool :=
  startsWithL "*".data t.literal_name.data

/-- `LvType::is_array`: the literal text begins with `"* mut *"`. -/
def LvType.is_array (t : LvType) : Bool :=
  startsWithL "* mut *".data t.literal_name.data

/-- `LvArg`: a named, typed parameter. -/
structure LvArg where
  name : String
  typ : LvType
deriving DecidableEq, Repr

/-- `LvArg::get_type`. -/
def LvArg.get_type (a : LvArg) : LvType := a.typ

/-- `LvFunc`: a foreign declaration (name, ordered args, optional return). -/
structure LvFunc where
  name : String
  args : List LvArg
  ret : Option LvType
deriving DecidableEq, Repr

/-- `LvFunc::is_method`: the declaration has at least one argument and
the *first* argument's literal type text contains `"lv_obj_t"`. -/
def LvFunc.is_method (f : LvFunc) : Bool :=
  match f.args with
  | [] => false
  | a :: _ => occursIn "lv_obj_t".data a.typ.literal_name.data

/-- `LvWidget`: a widget name together with its grouped method list. -/
structure LvWidget where
  name : String
  methods : List LvFunc
deriving DecidableEq, Repr

/-- `inflector::to_pascal_case` on the lower-case snake-case identifiers
the generator feeds it: drop underscores and capitalize each chunk. -/
def pascalAux : List Char → Bool → List Char
  | [], _ => []
  | c :: cs, capNext =>
    if c = '_' then pascalAux cs true
    else (if capNext then c.toUpper else c) :: pascalAux cs false

/-- `LvWidget::pascal_name`. -/
def to_pascal_case (s : String) : String := ⟨pascalAux s.data true⟩

/-! ### Widget discovery and method grouping (`CodeGen`) -/

/-- Capture of the regex `^lv_([^_]+)_create$` from
`CodeGen::get_widget_names`: the whole name must be
`"lv_" ++ X ++ "_create"` with `X` nonempty and containing no
underscore; returns that `X`. -/
def createCapture (name : List Char) : Option (List Char) :=
  match stripPre "lv_".data name with
  | none => none
  | some rest =>
    match stripSuf "_create".data rest with
    | none => none
    | some mid => if mid = [] then none else if '_' ∈ mid then none else some mid

/-- `CodeGen::get_widget_names`: declarations whose name matches
`^lv_([^_]+)_create$` and which take exactly one argument contribute
their captured identifier, in declaration order. -/
def CodeGen.get_widget_names (fns : List LvFunc) : List String :=
  fns.filterMap (fun f =>
    if f.args.length = 1 then (createCapture f.name.data).map (fun l => String.mk l)
    else none)

/-- The method list the `CodeGen::extract_widgets` fold builds for one
discovered widget name: every declaration whose name starts with
`"lv_" ++ widget_name` (note: no trailing underscore in the source) and
which `is_method`, in declaration order.  (The surrounding `HashMap`
only makes the order of the *widgets* unspecified; each widget's method
list is pushed in declaration order, as modelled here, and the entry for
a name exists iff this list is nonempty.) -/
def CodeGen.extract_methods (fns : List LvFunc) (widget_name : String) : List LvFunc :=
  fns.filter (fun f =>
    startsWithL ("lv_" ++ widget_name).data f.name.data && f.is_method)

/-! ### Lowered code shapes

The `quote!` token streams produced by the generator are embedded as
structured values recording the information the emitted text carries. -/

/-- Lowered form of a non-receiver parameter (`LvType::code`). -/
inductive ParamForm where
  | constStr                 -- `&cstr_core::CStr`
  | mutStr                   -- `&mut cstr_core::CString`
  | constNativeObj           -- `&impl NativeObject`
  | mutNativeObj             -- `&mut impl NativeObject`
  | refMut (inner : String)  -- `&mut Ty`
  | ref (inner : String)     -- `&Ty`
  | value (inner : String)   -- `Ty`
deriving DecidableEq, Repr

/-- Argument expression passed to the FFI call (`ffi_args` fold). -/
inductive FfiArg where
  | receiverRaw (viaCore : Bool) -- `self.core.raw().as_mut()` / `self.raw().as_mut()`
  | rawMut (name : String)       -- `name.raw().as_mut()`
  | rawRef (name : String)       -- `name.raw().as_ref()`
  | constStrPtr (name : String)  -- `name.as_ptr()`
  | rawTemp (name : String)      -- `name_raw`
  | plain (name : String)        -- `name`
deriving DecidableEq, Repr

/-- One statement of a generated wrapper body. -/
inductive Stmt where
  | detach (name : String)   -- `let name_raw = name.clone().into_raw();`
  | call (fname : String) (args : List FfiArg) (semi : Bool)
  | reattach (name : String) -- `*name = cstr_core::CString::from_raw(name_raw);`
  | okUnit                   -- `Ok(())`
deriving DecidableEq, Repr

/-- Return position of a generated wrapper. -/
inductive RetForm where
  | unit                -- `()`
  | typed (lit : String)
deriving DecidableEq, Repr

/-- A generically lowered wrapper function. -/
structure GenFn where
  isPub : Bool
  fname : String
  /-- `none` when the declaration has no arguments (no receiver is
  emitted); `some true` is `&mut self`, `some false` is `&self`. -/
  receiver : Option Bool
  params : List (String × ParamForm)
  ret : RetForm
  body : List Stmt
deriving DecidableEq, Repr

/-- Result of lowering one declaration: either the synthesized
constructor pair (keyed by the native function it calls) or a generic
wrapper function. -/
inductive FnCode where
  | ctor (originalName : String)
  | plainFn (g : GenFn)
deriving DecidableEq, Repr

/-- `WrapperResult<TokenStream>` for one declaration. -/
inductive CodeResult where
  | ok (c : FnCode)
  | skip
deriving DecidableEq, Repr

/-! ### `LvType::code` (argument lowering) -/

/-- The qualifier stripping from `LvType::code`:
`literal.replace("* const ", "").replace("* mut ", "")`. -/
def LvType.strippedName (t : LvType) : String :=
  strReplaceAll (strReplaceAll t.literal_name "* const ") "* mut "

/-- `LvType::code`: lower a non-receiver parameter type, or `none` for
`WrapperError::Skip` (pointer arrays and void pointers). -/
def LvType.codeArg (t : LvType) : Option ParamForm :=
  if t.is_const_str then some .constStr
  else if t.is_mut_str then some .mutStr
  else if t.is_const_native_object then some .constNativeObj
  else if t.is_mut_native_object then some .mutNativeObj
  else if t.is_array then none
  else
    let raw := t.strippedName
    if raw == "cty :: c_void" then none
    else if startsWithL "* mut".data t.literal_name.data then some (.refMut raw)
    else if startsWithL "*".data t.literal_name.data then some (.ref raw)
    else some (.value raw)

/-! ### `LvFunc::code` (function lowering) -/

/-- The template `format!("{}{}_", LIB_PREFIX, parent.name)` and the
derived operation name `self.name.replace(templ, "")`. -/
def LvFunc.new_name (f : LvFunc) (parent : LvWidget) : String :=
  strReplaceAll f.name ("lv_" ++ parent.name ++ "_")

/-- The constructor special case trigger:
`new_name == "create" && parent.name != "obj"`. -/
def LvFunc.is_ctor_case (f : LvFunc) (parent : LvWidget) : Bool :=
  f.new_name parent == "create" && parent.name != "obj"

/-- Return handling of `LvFunc::code`: `none` return becomes `()`,
a non-pointer return keeps its literal, a pointer return is `Skip`
(modelled as `none`). -/
def LvFunc.ret_form (f : LvFunc) : Option RetForm :=
  match f.ret with
  | none => some .unit
  | some rv => if rv.is_pointer then none else some (.typed rv.literal_name)

/-- The per-argument validity loop: every argument except the first must
lower (`arg.code(self)?`). -/
def LvFunc.args_ok (f : LvFunc) : Bool :=
  (f.args.drop 1).all (fun a => (a.typ.codeArg).isSome)

/-- Receiver choice from `args_decl`: for the first argument, `&self`
when its type `is_const`, otherwise `&mut self`; `none` when the
declaration has no arguments.  `some true` means mutable. -/
def LvFunc.receiver_decl (f : LvFunc) : Option Bool :=
  f.args.head?.map (fun a0 => !a0.typ.is_const)

/-- Lowered non-receiver parameter list from `args_decl`. -/
def LvFunc.params_decl (f : LvFunc) : List (String × ParamForm) :=
  (f.args.drop 1).filterMap (fun a => (a.typ.codeArg).map (fun p => (a.name, p)))

/-- `args_preprocessing`: one detach statement per mutable-string
argument past the receiver (`LvArg::get_preprocessing`). -/
def LvFunc.pre_steps (f : LvFunc) : List Stmt :=
  (f.args.drop 1).filterMap (fun a =>
    if a.typ.is_mut_str then some (Stmt.detach a.name) else none)

/-- `args_postprocessing`: one reattach statement per mutable-string
argument past the receiver (`LvArg::get_postprocessing`). -/
def LvFunc.post_steps (f : LvFunc) : List Stmt :=
  (f.args.drop 1).filterMap (fun a =>
    if a.typ.is_mut_str then some (Stmt.reattach a.name) else none)

/-- `ffi_args` fold: receiver raw pointer first (through `.core` unless
the parent is the root widget), then per-argument usage expressions
(`LvArg::get_value_usage` with the native-object cases handled first). -/
def LvFunc.ffi_args (f : LvFunc) (parent : LvWidget) : List FfiArg :=
  f.args.mapIdx (fun i a =>
    if i = 0 then .receiverRaw (parent.name != "obj")
    else if a.typ.is_mut_native_object then .rawMut a.name
    else if a.typ.is_const_native_object then .rawRef a.name
    else if a.typ.is_const_str then .constStrPtr a.name
    else if a.typ.is_mut_str then .rawTemp a.name
    else .plain a.name)

/-- `explicit_ok`: `Ok(())` is appended only when the return-type token
stream is empty.  `quote!(())` for a void return is one (group) token,
so this fires only when a declared return literal holds no tokens at
all, i.e. is whitespace-only. -/
def LvFunc.ok_tail (f : LvFunc) : List Stmt :=
  match f.ret with
  | none => []
  | some rv => if rv.literal_name.data.all Char.isWhitespace then [Stmt.okUnit] else []

/-- The assembled `unsafe { ... }` body of a generic wrapper:
preprocessing, the FFI call (with a trailing semicolon exactly when the
declaration returns nothing), postprocessing, optional `Ok(())`. -/
def LvFunc.gen_body (f : LvFunc) (parent : LvWidget) : List Stmt :=
  f.pre_steps ++ Stmt.call f.name (f.ffi_args parent) f.ret.isNone :: (f.post_steps ++ f.ok_tail)

/-- `LvFunc::code`: the full lowering of one declaration against its
owning widget. -/
def LvFunc.code (f : LvFunc) (parent : LvWidget) : CodeResult :=
  if f.is_ctor_case parent then .ok (.ctor f.name)
  else
    match f.ret_form with
    | none => .skip
    | some rf =>
      if f.args_ok then
        .ok (.plainFn
          { isPub := parent.name != "obj"
            fname := f.new_name parent
            receiver := f.receiver_decl
            params := f.params_decl
            ret := rf
            body := f.gen_body parent })
      else .skip

/-! ### Projections on `CodeResult` -/

/-- The emitted operation name of a generically lowered declaration. -/
def CodeResult.fname? : CodeResult → Option String
  | .ok (.plainFn g) => some g.fname
  | _ => none

/-- The receiver of a generically lowered declaration. -/
def CodeResult.receiver? : CodeResult → Option (Option Bool)
  | .ok (.plainFn g) => some g.receiver
  | _ => none

/-- The body of a generically lowered declaration. -/
def CodeResult.body? : CodeResult → Option (List Stmt)
  | .ok (.plainFn g) => some g.body
  | _ => none

/-! ### Constructor special case: emitted template and its semantics

When `new_name == "create"` and the widget is not the root widget,
`LvFunc::code` emits a fixed template containing exactly two operations
(`pub fn create(parent)` and `pub fn new()`).  The template's runtime
behaviour is embedded below: raw native handles are `Nat`s, the native
constructor is a function from the parent handle to an optional (null =
`none`) raw handle, and `crate::display::get_scr_act()` is an abstract
`LvResult` of a parent handle. -/

/-- The two operations the constructor template contains, in emission
order. -/
inductive CtorOp where
  | createFn (nativeName : String)
  | newFn
deriving DecidableEq, Repr

/-- The operation list of the emitted constructor fragment. -/
def ctor_fragment_ops (nativeName : String) : List CtorOp :=
  [.createFn nativeName, .newFn]

/-- Errors of the emitted constructor code (`crate::LvError`): the
template itself produces `InvalidReference`; `get_scr_act` may fail with
some other error. -/
inductive LvErrorE where
  | invalidReference
  | displayError
deriving DecidableEq, Repr

/-- The wrapped widget value built by the template: `Self { core }`
where `core` holds the non-null raw handle obtained from
`<crate::Obj as Widget>::from_raw(raw)`. -/
structure WidgetObj where
  core : Nat
deriving DecidableEq, Repr

/-- Semantics of the emitted `create(parent)`: call the native
constructor with the parent handle; a non-null result is wrapped into
the widget's concrete type, a null result is an invalid-reference
error. -/
def ctor_create_sem (nativeCreate : Nat → Option Nat) (parent : Nat) :
    Except LvErrorE WidgetObj :=
  match nativeCreate parent with
  | some raw => .ok ⟨raw⟩
  | none => .error .invalidReference

/-- Semantics of the emitted `new()`: obtain the active screen as the
default parent and delegate to `create`. -/
def ctor_new_sem (get_scr_act : Except LvErrorE Nat) (nativeCreate : Nat → Option Nat) :
    Except LvErrorE WidgetObj :=
  match get_scr_act with
  | .ok parent => ctor_create_sem nativeCreate parent
  | .error e => .error e

/-! ### `LvWidget::code` (widget assembly) -/

/-- One item of the emitted root-widget trait. -/
inductive TraitItem where
  | assocSpecialEvent          -- `type SpecialEvent;`
  | assocPart                  -- `type Part: Into<lvgl_sys::lv_part_t>;`
  | fromRawReq                 -- `unsafe fn from_raw(raw_pointer: NonNull<lv_obj_t>) -> Option<Self>;`
  | item (c : FnCode)
deriving DecidableEq, Repr

/-- The emitted module for one widget. -/
inductive WidgetCode where
  | traitWidget (items : List TraitItem)          -- `pub trait Widget<'a>: ... { ... }`
  | concrete (pascalName : String) (items : List FnCode)
      -- `define_object!(Name); impl<'a> Name<'a> { ... }`
deriving DecidableEq, Repr

/-- The `flat_map` over the widget's methods in `LvWidget::code`:
lowered methods in order, skipped ones dropped. -/
def LvWidget.method_codes (w : LvWidget) : List FnCode :=
  w.methods.filterMap (fun m =>
    match m.code w with
    | .ok c => some c
    | .skip => none)

/-- `LvWidget::code`: the root widget (`"obj"`) becomes the abstract
`Widget` trait (associated event and part types, the `from_raw`
requirement, then the lowered methods); every other widget becomes a
concrete type with its lowered methods inside an inherent `impl`. -/
def LvWidget.codeW (w : LvWidget) : WidgetCode :=
  if w.name == "obj" then
    .traitWidget ([.assocSpecialEvent, .assocPart, .fromRawReq] ++ w.method_codes.map .item)
  else
    .concrete (to_pascal_case w.name) w.method_codes

/-- Whether a lowered operation is the synthesized constructor pair. -/
def FnCode.isCtor : FnCode → Bool
  | .ctor _ => true
  | .plainFn _ => false

/-- Whether a lowered operation carries the `pub` visibility qualifier
(the constructor template always does). -/
def FnCode.hasPub : FnCode → Bool
  | .ctor _ => true
  | .plainFn g => g.isPub

/-! ### Concrete declarations used as inputs below

These mirror signatures from the repository's own test-suite and from
the LVGL headers it is run against. -/

/-- `lv_dropdown_get_selected_str(obj: *const lv_obj_t, buf: *mut cty::c_char, buf_size: u32)` -/
def dropF : LvFunc :=
  ⟨"lv_dropdown_get_selected_str",
    [⟨"obj", ⟨"* const lv_obj_t"⟩⟩, ⟨"buf", ⟨"* mut cty :: c_char"⟩⟩, ⟨"buf_size", ⟨"u32"⟩⟩],
    none⟩

/-- The `dropdown` widget (method list irrelevant to lowering). -/
def dropW : LvWidget := ⟨"dropdown", []⟩

/-- The `btn` widget. -/
def btnW : LvWidget := ⟨"btn", []⟩

/-- `lv_btn_create(parent: *mut lv_obj_t) -> *mut lv_obj_t` -/
def btnCreateF : LvFunc :=
  ⟨"lv_btn_create", [⟨"parent", ⟨"* mut lv_obj_t"⟩⟩], some ⟨"* mut lv_obj_t"⟩⟩

/-- A hypothetical declaration for a widget named `btnx`; its name
starts with `"lv_btn"` but not with `"lv_btn_"`. -/
def btnxFooF : LvFunc :=
  ⟨"lv_btnx_foo", [⟨"obj", ⟨"* mut lv_obj_t"⟩⟩], none⟩

/-- A declaration whose first parameter does not mention the base
object type, but whose second one does. -/
def btnSecondF : LvFunc :=
  ⟨"lv_btn_second", [⟨"x", ⟨"u32"⟩⟩, ⟨"obj", ⟨"* mut lv_obj_t"⟩⟩], none⟩

/-- Declaration list exercising the method-grouping predicate. -/
def fnsC2 : List LvFunc := [btnCreateF, btnxFooF, btnSecondF]

/-- A declaration name in which the grouping template
`"lv_btn_"` occurs twice. -/
def doubleF : LvFunc :=
  ⟨"lv_btn_lv_btn_set", [⟨"obj", ⟨"* mut lv_obj_t"⟩⟩], none⟩

/-- The widget-discovery example of the claim:
`lv_obj_create(parent)`, `lv_btn_create(parent)`,
`lv_btn_create(parent, copy)`, `lv_do_something(x)`. -/
def exampleFns : List LvFunc :=
  [⟨"lv_obj_create", [⟨"parent", ⟨"* mut lv_obj_t"⟩⟩], some ⟨"* mut lv_obj_t"⟩⟩,
   btnCreateF,
   ⟨"lv_btn_create", [⟨"parent", ⟨"* mut lv_obj_t"⟩⟩, ⟨"copy", ⟨"* const lv_obj_t"⟩⟩],
     some ⟨"* mut lv_obj_t"⟩⟩,
   ⟨"lv_do_something", [⟨"x", ⟨"u32"⟩⟩], none⟩]

/-- `lv_btn_get_parent(obj: *mut lv_obj_t) -> *mut lv_obj_t`: a
pointer-returning accessor. -/
def getParentF : LvFunc :=
  ⟨"lv_btn_get_parent", [⟨"obj", ⟨"* mut lv_obj_t"⟩⟩], some ⟨"* mut lv_obj_t"⟩⟩

/-- A declaration with a non-receiver parameter whose literal starts
with the double-pointer pattern `* const *`. -/
def constDoublePtrF : LvFunc :=
  ⟨"lv_btn_set_map", [⟨"obj", ⟨"* mut lv_obj_t"⟩⟩, ⟨"map", ⟨"* const * const u8"⟩⟩], none⟩

/-- A declaration with a `* mut *` pointer-array parameter. -/
def mutDoublePtrF : LvFunc :=
  ⟨"lv_btn_set_maps", [⟨"obj", ⟨"* mut lv_obj_t"⟩⟩, ⟨"maps", ⟨"* mut * const cty :: c_char"⟩⟩], none⟩

/-- A `create` declaration carrying unsupported parameter shapes and a
pointer return. -/
def badCreateF : LvFunc :=
  ⟨"lv_btn_create",
    [⟨"parent", ⟨"* mut lv_obj_t"⟩⟩, ⟨"a", ⟨"* mut * mut u8"⟩⟩, ⟨"v", ⟨"* mut cty :: c_void"⟩⟩],
    some ⟨"* mut lv_obj_t"⟩⟩

/-- `lv_obj_clean(obj: *mut lv_obj_t)`: a root-widget method. -/
def objCleanF : LvFunc := ⟨"lv_obj_clean", [⟨"obj", ⟨"* mut lv_obj_t"⟩⟩], none⟩

/-- The root widget with one method. -/
def objW : LvWidget := ⟨"obj", [objCleanF]⟩

/-- The `btn` widget holding its create declaration as a method. -/
def btnWM : LvWidget := ⟨"btn", [btnCreateF]⟩

/-- Number of occurrences of a statement in a generated body (used to
state the pre-step/post-step properties). -/
def countStmt (t : Stmt) : List Stmt → Nat
  | [] => 0
  | x :: xs => (if x = t then 1 else 0) + countStmt t xs

/-- Modelled from the claim wording for the name-derivation step:
remove only the *first* unanchored occurrence of `pat`, leaving any
later occurrence untouched.  (The source instead uses Rust
`str::replace`, embedded as `strReplaceAll`, which removes every
occurrence.) -/
def removeFirstAux (pat : List Char) : List Char → List Char
  | [] => []
  | c :: cs =>
    if startsWithL pat (c :: cs) then List.drop pat.length (c :: cs)
    else c :: removeFirstAux pat cs

/-! ### String and list helper lemmas -/

theorem strData_append (a b : String) : (a ++ b).data = a.data ++ b.data := by
  cases a; cases b; rfl

theorem strExt {a b : String} (h : a.data = b.data) : a = b := by
  cases a; cases b; exact congrArg String.mk h

theorem strMk_data (a : String) : String.mk a.data = a := by
  cases a; rfl

theorem stripPre_eq_some {p : List Char} :
    ∀ {s r : List Char}, stripPre p s = some r ↔ s = p ++ r := by
  induction p with
  | nil => intro s r; simp [stripPre]
  | cons p ps ih =>
    intro s r
    cases s with
    | nil => simp [stripPre]
    | cons c cs =>
      by_cases h : p = c
      · subst h; simp [stripPre, ih]
      · simp [stripPre, h]
        intro h2
        exact absurd h2.symm h

theorem stripSuf_eq_some {suf s r : List Char} :
    stripSuf suf s = some r ↔ s = r ++ suf := by
  simp only [stripSuf, Option.map_eq_some', stripPre_eq_some]
  constructor
  · rintro ⟨a, ha, rfl⟩
    have := congrArg List.reverse ha
    simpa using this
  · intro h
    exact ⟨r.reverse, by rw [h]; simp, by simp⟩

theorem createCapture_eq_some {name X : List Char} :
    createCapture name = some X ↔
      name = "lv_".data ++ (X ++ "_create".data) ∧ X ≠ [] ∧ '_' ∉ X := by
  constructor
  · intro h
    cases hp : stripPre "lv_".data name with
    | none =>
      simp only [createCapture, hp] at h
      cases h
    | some rest =>
      simp only [createCapture, hp] at h
      cases hs : stripSuf "_create".data rest with
      | none =>
        simp only [hs] at h
        cases h
      | some mid =>
        simp only [hs] at h
        by_cases hm : mid = []
        · rw [if_pos hm] at h; cases h
        · rw [if_neg hm] at h
          by_cases hu : '_' ∈ mid
          · rw [if_pos hu] at h; cases h
          · rw [if_neg hu] at h
            injection h with h
            subst h
            refine ⟨?_, hm, hu⟩
            rw [stripPre_eq_some.mp hp, stripSuf_eq_some.mp hs]
  · rintro ⟨hname, hne, hnu⟩
    have hp : stripPre "lv_".data name = some (X ++ "_create".data) :=
      stripPre_eq_some.mpr hname
    have hs : stripSuf "_create".data (X ++ "_create".data) = some X :=
      stripSuf_eq_some.mpr rfl
    simp only [createCapture, hp, hs, if_neg hne, if_neg hnu]

theorem startsWithL_append_self (l t : List Char) : startsWithL l (l ++ t) = true := by
  induction l with
  | nil => rfl
  | cons c cs ih => simp [startsWithL, ih]

/-- Matching the template at the head of the scan consumes it whole. -/
theorem repAux_pat_head (p : Char) (ps : List Char) (fuel : Nat) (s : List Char) :
    repAux (p :: ps) (fuel + 1) ((p :: ps) ++ s) = repAux (p :: ps) fuel s := by
  have hsw : startsWithL (p :: ps) (p :: (ps ++ s)) = true :=
    startsWithL_append_self (p :: ps) s
  have hdrop : List.drop (p :: ps).length (p :: (ps ++ s)) = s :=
    List.drop_left (p :: ps) s
  show (if startsWithL (p :: ps) (p :: (ps ++ s)) = true
        then repAux (p :: ps) fuel (List.drop (p :: ps).length (p :: (ps ++ s)))
        else p :: repAux (p :: ps) fuel (ps ++ s)) = repAux (p :: ps) fuel s
  simp [hsw, hdrop]

/-- If the template never occurs in `s` the scan leaves `s` unchanged. -/
theorem repAux_no_occ {pat : List Char} :
    ∀ (fuel : Nat) (s : List Char), occursIn pat s = false → repAux pat fuel s = s := by
  intro fuel
  induction fuel with
  | zero => intro s _; cases s <;> rfl
  | succ fuel ih =>
    intro s h
    cases s with
    | nil => rfl
    | cons c cs =>
      rw [occursIn, Bool.or_eq_false_iff] at h
      simp [repAux, h.1, ih cs h.2]

/-! ### Counting statements -/

theorem countStmt_append (t : Stmt) (l₁ l₂ : List Stmt) :
    countStmt t (l₁ ++ l₂) = countStmt t l₁ + countStmt t l₂ := by
  induction l₁ with
  | nil => simp [countStmt]
  | cons x xs ih => simp [countStmt, ih]; omega

/-- A statement that the step builder never produces is never counted. -/
theorem countStmt_filterMap_zero_shape (mk : String → Stmt) (p : LvArg → Bool)
    (l : List LvArg) (t : Stmt) (h : ∀ x, mk x ≠ t) :
    countStmt t (l.filterMap (fun b => if p b then some (mk b.name) else none)) = 0 := by
  induction l with
  | nil => rfl
  | cons b bs ih =>
    by_cases hp : p b = true
    · simp [List.filterMap_cons, hp, countStmt, h b.name, ih]
    · simp [List.filterMap_cons, hp, ih]

/-- No argument of `l` is named `n`, so no step for `n` is produced. -/
theorem countStmt_filterMap_zero_name (mk : String → Stmt)
    (hinj : ∀ x y, mk x = mk y → x = y) (p : LvArg → Bool)
    (l : List LvArg) (n : String) (h : ∀ b ∈ l, b.name ≠ n) :
    countStmt (mk n) (l.filterMap (fun b => if p b then some (mk b.name) else none)) = 0 := by
  induction l with
  | nil => rfl
  | cons b bs ih =>
    have hb : b.name ≠ n := h b (by simp)
    have htl : ∀ b' ∈ bs, b'.name ≠ n := fun b' hb' => h b' (by simp [hb'])
    by_cases hp : p b = true
    · have hne : mk b.name ≠ mk n := fun hc => hb (hinj _ _ hc)
      simp [List.filterMap_cons, hp, countStmt, hne, ih htl]
    · simp [List.filterMap_cons, hp, ih htl]

/-- An argument `a` of `l` selected by `p`, with argument names unique,
produces exactly one step for its name. -/
theorem countStmt_filterMap_one (mk : String → Stmt)
    (hinj : ∀ x y, mk x = mk y → x = y) (p : LvArg → Bool)
    (l : List LvArg) (a : LvArg) (ha : a ∈ l) (hp : p a = true)
    (hnd : (l.map LvArg.name).Nodup) :
    countStmt (mk a.name) (l.filterMap (fun b => if p b then some (mk b.name) else none)) = 1 := by
  induction l with
  | nil => cases ha
  | cons b bs ih =>
    have hnd' : (bs.map LvArg.name).Nodup := (List.nodup_cons.mp hnd).2
    have hbn : b.name ∉ bs.map LvArg.name := (List.nodup_cons.mp hnd).1
    rcases List.mem_cons.mp ha with rfl | hmem
    · have hz : countStmt (mk a.name)
          (bs.filterMap (fun b => if p b then some (mk b.name) else none)) = 0 := by
        refine countStmt_filterMap_zero_name mk hinj p bs a.name ?_
        intro b' hb' hc
        exact hbn (hc ▸ List.mem_map_of_mem LvArg.name hb')
      simp [List.filterMap_cons, hp, countStmt, hz]
    · have hbne : b.name ≠ a.name := by
        intro hc
        exact hbn (hc ▸ List.mem_map_of_mem LvArg.name hmem)
      by_cases hpb : p b = true
      · have hne : mk b.name ≠ mk a.name := fun hc => hbne (hinj _ _ hc)
        simp [List.filterMap_cons, hpb, countStmt, hne, ih hmem hnd']
      · simp [List.filterMap_cons, hpb, ih hmem hnd']

/-! ### Facts about the classifier and the lowering function -/

/-- A const object-pointer literal starts with `*`, not with `"const "`,
so `is_const` rejects it. -/
theorem is_const_false_of_const_native {t : LvType}
    (h : t.is_const_native_object = true) : t.is_const = false := by
  obtain ⟨lit⟩ := t
  rw [LvType.is_const_native_object, Bool.or_eq_true] at h
  rcases h with h | h
  · have e : lit = "* const lv_obj_t" := eq_of_beq h
    subst e; decide
  · have e : lit = "* const _lv_obj_t" := eq_of_beq h
    subst e; decide

/-- A `* mut *` pointer-array argument is skipped by `LvType::code`. -/
theorem codeArg_none_of_array {t : LvType} (h : t.is_array = true) :
    t.codeArg = none := by
  obtain ⟨lit⟩ := t
  have h1 : (LvType.mk lit).is_const_str = false := by
    cases hc : (LvType.mk lit).is_const_str with
    | false => rfl
    | true =>
      have e : lit = "* const cty :: c_char" := eq_of_beq hc
      subst e; exact absurd h (by decide)
  have h2 : (LvType.mk lit).is_mut_str = false := by
    cases hc : (LvType.mk lit).is_mut_str with
    | false => rfl
    | true =>
      have e : lit = "* mut cty :: c_char" := eq_of_beq hc
      subst e; exact absurd h (by decide)
  have h3 : (LvType.mk lit).is_const_native_object = false := by
    cases hc : (LvType.mk lit).is_const_native_object with
    | false => rfl
    | true =>
      rw [LvType.is_const_native_object, Bool.or_eq_true] at hc
      rcases hc with hc | hc
      · have e : lit = "* const lv_obj_t" := eq_of_beq hc
        subst e; exact absurd h (by decide)
      · have e : lit = "* const _lv_obj_t" := eq_of_beq hc
        subst e; exact absurd h (by decide)
  have h4 : (LvType.mk lit).is_mut_native_object = false := by
    cases hc : (LvType.mk lit).is_mut_native_object with
    | false => rfl
    | true =>
      rw [LvType.is_mut_native_object, Bool.or_eq_true] at hc
      rcases hc with hc | hc
      · have e : lit = "* mut lv_obj_t" := eq_of_beq hc
        subst e; exact absurd h (by decide)
      · have e : lit = "* mut _lv_obj_t" := eq_of_beq hc
        subst e; exact absurd h (by decide)
  simp [LvType.codeArg, h1, h2, h3, h4, h]

/-- An argument whose stripped literal is the opaque void type is
skipped by `LvType::code`. -/
theorem codeArg_none_of_void {t : LvType} (h : t.strippedName = "cty :: c_void") :
    t.codeArg = none := by
  obtain ⟨lit⟩ := t
  have h1 : (LvType.mk lit).is_const_str = false := by
    cases hc : (LvType.mk lit).is_const_str with
    | false => rfl
    | true =>
      have e : lit = "* const cty :: c_char" := eq_of_beq hc
      subst e; exact absurd h (by decide)
  have h2 : (LvType.mk lit).is_mut_str = false := by
    cases hc : (LvType.mk lit).is_mut_str with
    | false => rfl
    | true =>
      have e : lit = "* mut cty :: c_char" := eq_of_beq hc
      subst e; exact absurd h (by decide)
  have h3 : (LvType.mk lit).is_const_native_object = false := by
    cases hc : (LvType.mk lit).is_const_native_object with
    | false => rfl
    | true =>
      rw [LvType.is_const_native_object, Bool.or_eq_true] at hc
      rcases hc with hc | hc
      · have e : lit = "* const lv_obj_t" := eq_of_beq hc
        subst e; exact absurd h (by decide)
      · have e : lit = "* const _lv_obj_t" := eq_of_beq hc
        subst e; exact absurd h (by decide)
  have h4 : (LvType.mk lit).is_mut_native_object = false := by
    cases hc : (LvType.mk lit).is_mut_native_object with
    | false => rfl
    | true =>
      rw [LvType.is_mut_native_object, Bool.or_eq_true] at hc
      rcases hc with hc | hc
      · have e : lit = "* mut lv_obj_t" := eq_of_beq hc
        subst e; exact absurd h (by decide)
      · have e : lit = "* mut _lv_obj_t" := eq_of_beq hc
        subst e; exact absurd h (by decide)
  cases harr : (LvType.mk lit).is_array with
  | true => exact codeArg_none_of_array harr
  | false => simp [LvType.codeArg, h1, h2, h3, h4, harr, h]

/-- The generic lowering path, fully evaluated. -/
theorem code_plain {f : LvFunc} {w : LvWidget} {rf : RetForm}
    (hctor : f.is_ctor_case w = false) (hrf : f.ret_form = some rf)
    (hok : f.args_ok = true) :
    f.code w = .ok (.plainFn
      { isPub := w.name != "obj"
        fname := f.new_name w
        receiver := f.receiver_decl
        params := f.params_decl
        ret := rf
        body := f.gen_body w }) := by
  simp [LvFunc.code, hctor, hrf, hok]

/-- The constructor special case fires exactly on non-root `create`. -/
theorem code_ctor {f : LvFunc} {w : LvWidget}
    (hobj : w.name ≠ "obj") (hnn : f.new_name w = "create") :
    f.code w = .ok (.ctor f.name) := by
  have hc : f.is_ctor_case w = true := by
    simp [LvFunc.is_ctor_case, hnn, hobj]
  simp [LvFunc.code, hc]

/-- The constructor trigger is off when the derived name is not
`"create"` or the widget is the root widget. -/
theorem ctor_case_false {f : LvFunc} {w : LvWidget}
    (h : f.new_name w ≠ "create" ∨ w.name = "obj") :
    f.is_ctor_case w = false := by
  rw [LvFunc.is_ctor_case]
  rcases h with h | h
  · simp [h]
  · simp [h]

/-- Any successful lowering is either the constructor fragment (with
the trigger on) or a generic function whose visibility follows the
parent widget. -/
theorem code_ok_shape {f : LvFunc} {w : LvWidget} {c : FnCode}
    (h : f.code w = .ok c) :
    (f.is_ctor_case w = true ∧ c = .ctor f.name) ∨
      (∃ g, c = .plainFn g ∧ g.isPub = (w.name != "obj")) := by
  unfold LvFunc.code at h
  by_cases hc : f.is_ctor_case w = true
  · rw [if_pos hc] at h
    simp at h
    exact Or.inl ⟨hc, h.symm⟩
  · rw [if_neg hc] at h
    cases hrf : f.ret_form with
    | none => simp only [hrf] at h; cases h
    | some rf =>
      simp only [hrf] at h
      by_cases hok : f.args_ok = true
      · rw [if_pos hok] at h
        simp at h
        exact Or.inr ⟨_, h.symm, rfl⟩
      · rw [if_neg hok] at h; cases h

/-- Membership in a widget's lowered method list. -/
theorem mem_method_codes {w : LvWidget} {c : FnCode} :
    c ∈ w.method_codes ↔ ∃ m ∈ w.methods, m.code w = .ok c := by
  simp only [LvWidget.method_codes, List.mem_filterMap]
  constructor
  · rintro ⟨m, hm, h⟩
    cases hc : m.code w with
    | ok c2 =>
      rw [hc] at h
      simp at h
      exact ⟨m, hm, by rw [hc, h]⟩
    | skip => rw [hc] at h; cases h
  · rintro ⟨m, hm, h⟩
    exact ⟨m, hm, by rw [h]⟩

/-! ### Claim C1: receiver mutability -/

/-- C1 (counterexample): `lv_dropdown_get_selected_str` has a
`* const lv_obj_t` first parameter, yet its lowered receiver is the
mutable form (`&mut self`), not `&self` — refuting the claim that a
const object-pointer first parameter yields an immutable receiver. -/
theorem C1_counterexample :
    (dropF.args.head?.map (fun a => a.typ.is_const_native_object)) = some true ∧
      (dropF.code dropW).receiver? = some (some true) ∧
      (dropF.code dropW).receiver? ≠ some (some false) := by
  decide

/-- C1 (amended): the receiver is immutable exactly when the first
parameter's literal begins with the token `"const "` (`LvType::is_const`).
Pointer literals begin with `*`, so a const *object-pointer* first
parameter (`* const lv_obj_t`) is not `is_const` and lowers to the
mutable receiver `&mut self`, as does a mutable object-pointer. -/
theorem C1_amended_receiver (f : LvFunc) (w : LvWidget) (a0 : LvArg) (rest : List LvArg)
    (hargs : f.args = a0 :: rest)
    (hctor : f.is_ctor_case w = false) (hret : f.ret_form.isSome = true)
    (hok : f.args_ok = true) :
    (f.code w).receiver? = some (some (!a0.typ.is_const)) ∧
      (a0.typ.is_const_native_object = true → (f.code w).receiver? = some (some true)) := by
  obtain ⟨rf, hrf⟩ := Option.isSome_iff_exists.mp hret
  have hcode := code_plain hctor hrf hok
  constructor
  · rw [hcode]
    simp [CodeResult.receiver?, LvFunc.receiver_decl, hargs]
  · intro hconst
    rw [hcode]
    simp [CodeResult.receiver?, LvFunc.receiver_decl, hargs,
      is_const_false_of_const_native hconst]

/-- C1 witness: the amended theorem evaluated on
`lv_dropdown_get_selected_str`. -/
theorem C1_amended_receiver_witness :
    (dropF.code dropW).receiver? = some (some true) := by
  have h := C1_amended_receiver dropF dropW
      ⟨"obj", ⟨"* const lv_obj_t"⟩⟩ [⟨"buf", ⟨"* mut cty :: c_char"⟩⟩, ⟨"buf_size", ⟨"u32"⟩⟩]
      rfl (by decide) (by decide) (by decide)
  exact h.2 (by decide)

/-! ### Claim C2: method grouping predicate -/

/-- C2 (counterexample): with widgets discovered from `fnsC2` (just
`btn`), the declaration `lv_btnx_foo` is attached to `btn` although its
name does not have `"lv_btn_"` (with the trailing underscore) as a
prefix, and `lv_btn_second` is *not* attached although it has the
`"lv_btn_"` prefix and has a parameter whose type mentions `lv_obj_t`
(its second one) — refuting both halves of the claimed predicate. -/
theorem C2_counterexample :
    "btn" ∈ CodeGen.get_widget_names fnsC2 ∧
      btnxFooF ∈ CodeGen.extract_methods fnsC2 "btn" ∧
      startsWithL "lv_btn_".data btnxFooF.name.data = false ∧
      btnSecondF ∉ CodeGen.extract_methods fnsC2 "btn" ∧
      startsWithL "lv_btn_".data btnSecondF.name.data = true ∧
      (btnSecondF.args.any (fun a => occursIn "lv_obj_t".data a.typ.literal_name.data)) = true := by
  decide

/-- C2 (amended): a declaration is attached to a discovered widget's
method list iff (a) its name has `"lv_" ++ widget` — with no trailing
underscore — as a textual prefix, and (b) it is a method: it has at
least one parameter and its *first* parameter's type-literal contains
`"lv_obj_t"` as a substring.  Multi-attachment when one widget name
prefixes another follows a fortiori. -/
theorem C2_amended_grouping (fns : List LvFunc) (w : String) (f : LvFunc) :
    f ∈ CodeGen.extract_methods fns w ↔
      f ∈ fns ∧ startsWithL ("lv_" ++ w).data f.name.data = true ∧ f.is_method = true := by
  simp [CodeGen.extract_methods, List.mem_filter]

/-- C2 witness: the amended grouping rule admits `lv_btnx_foo` into
widget `btn`. -/
theorem C2_amended_grouping_witness :
    btnxFooF ∈ CodeGen.extract_methods fnsC2 "btn" :=
  (C2_amended_grouping fnsC2 "btn" btnxFooF).mpr ⟨by decide, by decide, by decide⟩

/-! ### Claim C3: derived operation name -/

/-- C3 (counterexample): for declaration `lv_btn_lv_btn_set` lowered for
widget `btn`, removing only the first occurrence of `"lv_btn_"` would
give `"lv_btn_set"`, but the emitted operation name is `"set"`: the
second occurrence is removed as well. -/
theorem C3_counterexample :
    (doubleF.code btnW).fname? = some "set" ∧
      String.mk (removeFirstAux "lv_btn_".data doubleF.name.data) = "lv_btn_set" ∧
      (doubleF.code btnW).fname? ≠ some "lv_btn_set" := by
  decide

/-- C3 (amended): the emitted operation name removes *every*
non-overlapping left-to-right occurrence of `"lv_" ++ W ++ "_"`, not
only the first: a name consisting of two template occurrences followed
by occurrence-free text is reduced to that text. -/
theorem C3_amended_name_derivation (w : LvWidget) (t : String) (f : LvFunc)
    (hname : f.name = ("lv_" ++ w.name ++ "_") ++ (("lv_" ++ w.name ++ "_") ++ t))
    (hocc : occursIn ("lv_" ++ w.name ++ "_").data t.data = false) :
    f.new_name w = t := by
  have hcons : ("lv_" ++ w.name ++ "_").data
      = 'l' :: (('v' :: '_' :: w.name.data) ++ "_".data) := by
    simp only [strData_append]
    rfl
  have hdata : f.name.data =
      ("lv_" ++ w.name ++ "_").data ++ (("lv_" ++ w.name ++ "_").data ++ t.data) := by
    rw [hname]
    simp only [strData_append]
  apply strExt
  show repAux ("lv_" ++ w.name ++ "_").data f.name.data.length f.name.data = t.data
  rw [hdata, hcons]
  have hlen : (('l' :: (('v' :: '_' :: w.name.data) ++ "_".data)) ++
        (('l' :: (('v' :: '_' :: w.name.data) ++ "_".data)) ++ t.data)).length
      = ((('v' :: '_' :: w.name.data) ++ "_".data).length +
          ((('v' :: '_' :: w.name.data) ++ "_".data).length + t.data.length + 1)) + 1 := by
    simp only [List.length_append, List.length_cons]
    omega
  rw [hlen, repAux_pat_head]
  have hlen2 : (('v' :: '_' :: w.name.data) ++ "_".data).length +
        ((('v' :: '_' :: w.name.data) ++ "_".data).length + t.data.length + 1)
      = ((('v' :: '_' :: w.name.data) ++ "_".data).length +
          ((('v' :: '_' :: w.name.data) ++ "_".data).length + t.data.length)) + 1 := by
    omega
  rw [hlen2, repAux_pat_head]
  apply repAux_no_occ
  rw [← hcons]
  exact hocc

/-- C3 witness: the amended rule evaluated on `lv_btn_lv_btn_set`. -/
theorem C3_amended_name_derivation_witness : doubleF.new_name btnW = "set" :=
  C3_amended_name_derivation btnW "set" doubleF (by decide) (by decide)

/-! ### Claim C5: constructor synthesis -/

/-- C5: when the derived identifier is `"create"` and the widget is not
the root widget, lowering emits the constructor fragment: exactly the
two operations `create(parent)` and `new()`, where `create` wraps a
non-null native result into the widget's concrete type and yields the
invalid-reference error on a null result, and `new` resolves the active
screen as default parent and delegates to `create`. -/
theorem C5_constructor_synthesis (f : LvFunc) (w : LvWidget)
    (hobj : w.name ≠ "obj") (hnn : f.new_name w = "create") :
    f.code w = .ok (.ctor f.name) ∧
      ctor_fragment_ops f.name = [.createFn f.name, .newFn] ∧
      (∀ nc : Nat → Option Nat, ∀ p r : Nat, nc p = some r →
        ctor_create_sem nc p = .ok ⟨r⟩) ∧
      (∀ nc : Nat → Option Nat, ∀ p : Nat, nc p = none →
        ctor_create_sem nc p = .error .invalidReference) ∧
      (∀ nc : Nat → Option Nat, ∀ p : Nat, ctor_new_sem (.ok p) nc = ctor_create_sem nc p) ∧
      (∀ nc : Nat → Option Nat, ∀ e : LvErrorE, ctor_new_sem (.error e) nc = .error e) := by
  refine ⟨code_ctor hobj hnn, rfl, ?_, ?_, ?_, ?_⟩
  · intro nc p r h; simp [ctor_create_sem, h]
  · intro nc p h; simp [ctor_create_sem, h]
  · intro nc p; rfl
  · intro nc e; rfl

/-- C5 witness: `lv_btn_create` under widget `btn`, with the two
semantic cases evaluated at concrete handles. -/
theorem C5_constructor_synthesis_witness :
    btnCreateF.code btnW = .ok (.ctor "lv_btn_create") ∧
      ctor_create_sem (fun _ => some 5) 0 = .ok ⟨5⟩ ∧
      ctor_create_sem (fun _ => none) 0 = .error .invalidReference ∧
      ctor_new_sem (.ok 7) (fun _ => some 5) = ctor_create_sem (fun _ => some 5) 7 ∧
      ctor_new_sem (.error .displayError) (fun _ => some 5) = .error .displayError := by
  have h := C5_constructor_synthesis btnCreateF btnW (by decide) (by decide)
  exact ⟨h.1, h.2.2.1 _ 0 5 rfl, h.2.2.2.1 _ 0 rfl, h.2.2.2.2.1 _ 7, h.2.2.2.2.2 _ _⟩

/-! ### Claim C6: pointer returns are skipped -/

/-- C6: outside the constructor path, a declaration whose return
type-literal begins with `*` lowers to `Skipped`. -/
theorem C6_pointer_return_skip (f : LvFunc) (w : LvWidget) (rv : LvType)
    (hpath : f.new_name w ≠ "create" ∨ w.name = "obj")
    (hret : f.ret = some rv) (hptr : rv.is_pointer = true) :
    f.code w = .skip := by
  have hctor := ctor_case_false hpath
  have hrf : f.ret_form = none := by
    simp [LvFunc.ret_form, hret, hptr]
  simp [LvFunc.code, hctor, hrf]

/-- C6 witness: `lv_btn_get_parent` (returns `* mut lv_obj_t`) is
skipped. -/
theorem C6_pointer_return_skip_witness : getParentF.code btnW = .skip :=
  C6_pointer_return_skip getParentF btnW ⟨"* mut lv_obj_t"⟩ (Or.inl (by decide)) rfl (by decide)

/-! ### Claim C7: unsupported argument shapes are skipped -/

/-- C7 (counterexample): the parameter `map: * const * const u8` of
`lv_btn_set_map` begins with a double-pointer pattern, yet lowering does
not skip the declaration — the source's pointer-array test only matches
literals beginning with `"* mut *"`. -/
theorem C7_counterexample :
    (constDoublePtrF.args.map (fun a => startsWithL "* const *".data a.typ.literal_name.data))
        = [false, true] ∧
      constDoublePtrF.code btnW ≠ .skip := by
  decide

/-- C7 (amended): with `PointerArray` meaning a literal beginning with
`"* mut *"` (a const-qualified double pointer is *not* a pointer array
and lowers as a stripped reference), any declaration outside the
constructor path with a non-receiver pointer-array parameter, or one
whose qualifier-stripped literal is the opaque `cty :: c_void`, lowers
to `Skipped`. -/
theorem C7_amended_unsupported_args_skip (f : LvFunc) (w : LvWidget) (a : LvArg)
    (hmem : a ∈ f.args.drop 1)
    (hbad : a.typ.is_array = true ∨ a.typ.strippedName = "cty :: c_void")
    (hctor : f.is_ctor_case w = false) :
    f.code w = .skip := by
  have hnone : a.typ.codeArg = none := by
    rcases hbad with h | h
    · exact codeArg_none_of_array h
    · exact codeArg_none_of_void h
  have hok : f.args_ok = false := by
    cases hao : f.args_ok with
    | false => rfl
    | true =>
      rw [LvFunc.args_ok] at hao
      have h2 : (a.typ.codeArg).isSome = true := by
        simpa using List.all_eq_true.mp hao a hmem
      rw [hnone] at h2
      cases h2
  cases hrf : f.ret_form with
  | none => simp [LvFunc.code, hctor, hrf]
  | some rf => simp [LvFunc.code, hctor, hrf, hok]

/-- C7 witness: `lv_btn_set_maps` with a `* mut * const cty :: c_char`
pointer-array parameter is skipped. -/
theorem C7_amended_unsupported_args_skip_witness : mutDoublePtrF.code btnW = .skip :=
  C7_amended_unsupported_args_skip mutDoublePtrF btnW
    ⟨"maps", ⟨"* mut * const cty :: c_char"⟩⟩ (by decide) (Or.inl (by decide)) (by decide)

/-! ### Claim C10: the constructor path bypasses all checks -/

/-- C10: for a non-root widget, whenever the derived identifier is
`"create"` the lowering returns the constructor fragment before the
return-type and argument checks run — for *any* argument list and *any*
return type — and in particular never yields `Skipped`. -/
theorem C10_create_never_skipped (name : String) (args : List LvArg) (ret : Option LvType)
    (w : LvWidget) (hobj : w.name ≠ "obj")
    (hnn : LvFunc.new_name ⟨name, args, ret⟩ w = "create") :
    LvFunc.code ⟨name, args, ret⟩ w = .ok (.ctor name) ∧
      LvFunc.code ⟨name, args, ret⟩ w ≠ .skip := by
  have h := code_ctor hobj hnn
  exact ⟨h, by rw [h]; simp⟩

/-- C10 witness: a `create` declaration with a pointer-array parameter,
a void-pointer parameter and a pointer return is still lowered into the
constructor fragment. -/
theorem C10_create_never_skipped_witness :
    LvFunc.code ⟨"lv_btn_create", badCreateF.args, badCreateF.ret⟩ btnW
        = .ok (.ctor "lv_btn_create") ∧
      LvFunc.code ⟨"lv_btn_create", badCreateF.args, badCreateF.ret⟩ btnW ≠ .skip :=
  C10_create_never_skipped "lv_btn_create" badCreateF.args badCreateF.ret btnW
    (by decide) (by decide)

/-! ### Claim C4: widget discovery -/

/-- C4: widget discovery returns exactly the identifiers `X` (nonempty,
underscore-free) such that some declaration is named
`"lv_" ++ X ++ "_create"` and has exactly one parameter; on the
four-declaration example the discovered set is exactly `{obj, btn}`. -/
theorem C4_widget_discovery :
    CodeGen.get_widget_names exampleFns = ["obj", "btn"] ∧
      ∀ (fns : List LvFunc) (X : String),
        X ∈ CodeGen.get_widget_names fns ↔
          (X.data ≠ [] ∧ '_' ∉ X.data ∧
            ∃ f ∈ fns, f.args.length = 1 ∧ f.name = "lv_" ++ X ++ "_create") := by
  refine ⟨by decide, ?_⟩
  intro fns X
  simp only [CodeGen.get_widget_names, List.mem_filterMap]
  constructor
  · rintro ⟨f, hf, hsome⟩
    by_cases hl : f.args.length = 1
    · rw [if_pos hl] at hsome
      rcases Option.map_eq_some'.mp hsome with ⟨l, hcap, hmk⟩
      have hX : X.data = l := by rw [← hmk]
      rw [← hX] at hcap
      obtain ⟨hn, hne, hnu⟩ := createCapture_eq_some.mp hcap
      refine ⟨hne, hnu, f, hf, hl, ?_⟩
      apply strExt
      rw [hn]
      simp only [strData_append]
      simp [List.append_assoc]
    · rw [if_neg hl] at hsome; cases hsome
  · rintro ⟨hne, hnu, f, hf, hl, hname⟩
    refine ⟨f, hf, ?_⟩
    rw [if_pos hl]
    have hcap : createCapture f.name.data = some X.data := by
      apply createCapture_eq_some.mpr
      refine ⟨?_, hne, hnu⟩
      rw [hname]
      simp only [strData_append]
      simp [List.append_assoc]
    rw [hcap]
    simp [strMk_data]

/-- C4 witness: `btn` is discovered from the example declaration set. -/
theorem C4_widget_discovery_witness : "btn" ∈ CodeGen.get_widget_names exampleFns :=
  (C4_widget_discovery.2 exampleFns "btn").mpr
    ⟨by decide, by decide, btnCreateF, by decide, by decide, by decide⟩

/-! ### Claim C8: mutable-string buffer handoff -/

/-- The optional `Ok(())` tail never holds a detach or reattach step. -/
theorem ok_tail_cases (f : LvFunc) : f.ok_tail = [] ∨ f.ok_tail = [Stmt.okUnit] := by
  unfold LvFunc.ok_tail
  cases f.ret with
  | none => exact Or.inl rfl
  | some rv =>
    dsimp only
    split
    · exact Or.inr rfl
    · exact Or.inl rfl

theorem countStmt_ok_tail_detach (f : LvFunc) (n : String) :
    countStmt (Stmt.detach n) f.ok_tail = 0 := by
  rcases ok_tail_cases f with h | h <;> simp [h, countStmt]

theorem countStmt_ok_tail_reattach (f : LvFunc) (n : String) :
    countStmt (Stmt.reattach n) f.ok_tail = 0 := by
  rcases ok_tail_cases f with h | h <;> simp [h, countStmt]

/-- C8: for a declaration whose lowering succeeds, each mutable-string
parameter past the receiver (with parameter names unique) contributes
exactly one detach pre-step before the FFI call and exactly one
reattach post-step after it: the body is the pre-steps, then the call,
then the post-steps (then the optional `Ok(())`), with exactly one
detach for the buffer among the pre-steps and none after the call, and
exactly one reattach among the post-steps and none before the call. -/
theorem C8_mut_string_steps (f : LvFunc) (w : LvWidget) (a : LvArg)
    (hmem : a ∈ f.args.drop 1) (hmut : a.typ.is_mut_str = true)
    (hnd : (f.args.map LvArg.name).Nodup)
    (hctor : f.is_ctor_case w = false) (hret : f.ret_form.isSome = true)
    (hok : f.args_ok = true) :
    (f.code w).body? = some (f.pre_steps ++
        Stmt.call f.name (f.ffi_args w) f.ret.isNone :: (f.post_steps ++ f.ok_tail)) ∧
      countStmt (Stmt.detach a.name) f.pre_steps = 1 ∧
      countStmt (Stmt.reattach a.name) f.pre_steps = 0 ∧
      countStmt (Stmt.reattach a.name) (f.post_steps ++ f.ok_tail) = 1 ∧
      countStmt (Stmt.detach a.name) (f.post_steps ++ f.ok_tail) = 0 := by
  obtain ⟨rf, hrf⟩ := Option.isSome_iff_exists.mp hret
  have hcode := code_plain hctor hrf hok
  have hnd1 : ((f.args.drop 1).map LvArg.name).Nodup :=
    List.Nodup.sublist ((List.drop_sublist 1 f.args).map LvArg.name) hnd
  refine ⟨?_, ?_, ?_, ?_, ?_⟩
  · rw [hcode]
    simp [CodeResult.body?, LvFunc.gen_body]
  · have h1 := countStmt_filterMap_one Stmt.detach (fun x y h => by injection h)
      (fun b => b.typ.is_mut_str) (f.args.drop 1) a hmem hmut hnd1
    simpa [LvFunc.pre_steps] using h1
  · have h1 := countStmt_filterMap_zero_shape Stmt.detach (fun b => b.typ.is_mut_str)
      (f.args.drop 1) (Stmt.reattach a.name) (fun x => by simp)
    simpa [LvFunc.pre_steps] using h1
  · rw [countStmt_append, countStmt_ok_tail_reattach]
    have h1 := countStmt_filterMap_one Stmt.reattach (fun x y h => by injection h)
      (fun b => b.typ.is_mut_str) (f.args.drop 1) a hmem hmut hnd1
    have h2 : countStmt (Stmt.reattach a.name) f.post_steps = 1 := by
      simpa [LvFunc.post_steps] using h1
    rw [h2]
  · rw [countStmt_append, countStmt_ok_tail_detach]
    have h1 := countStmt_filterMap_zero_shape Stmt.reattach (fun b => b.typ.is_mut_str)
      (f.args.drop 1) (Stmt.detach a.name) (fun x => by simp)
    have h2 : countStmt (Stmt.detach a.name) f.post_steps = 0 := by
      simpa [LvFunc.post_steps] using h1
    rw [h2]

/-- C8 witness: the dropdown accessor with its `buf` mutable-string
parameter. -/
theorem C8_mut_string_steps_witness :
    (dropF.code dropW).body? = some (dropF.pre_steps ++
        Stmt.call dropF.name (dropF.ffi_args dropW) dropF.ret.isNone ::
          (dropF.post_steps ++ dropF.ok_tail)) ∧
      countStmt (Stmt.detach "buf") dropF.pre_steps = 1 ∧
      countStmt (Stmt.reattach "buf") dropF.pre_steps = 0 ∧
      countStmt (Stmt.reattach "buf") (dropF.post_steps ++ dropF.ok_tail) = 1 ∧
      countStmt (Stmt.detach "buf") (dropF.post_steps ++ dropF.ok_tail) = 0 :=
  C8_mut_string_steps dropF dropW ⟨"buf", ⟨"* mut cty :: c_char"⟩⟩
    (by decide) (by decide) (by decide) (by decide) (by decide) (by decide)

/-! ### Claim C9: root-widget emission -/

/-- C9: the root widget (`"obj"`) is emitted as the abstract `Widget`
trait — associated event-placeholder and part types plus the `from_raw`
requirement, followed by its lowered operations — never containing a
synthesized constructor, and with every lowered operation carrying no
`pub` qualifier; every other widget is emitted as a concrete type whose
operations all carry `pub`. -/
theorem C9_root_widget_emission (w : LvWidget) :
    (w.name = "obj" →
      w.codeW = .traitWidget
          ([.assocSpecialEvent, .assocPart, .fromRawReq] ++ w.method_codes.map TraitItem.item) ∧
        ∀ c ∈ w.method_codes, c.isCtor = false ∧ c.hasPub = false) ∧
    (w.name ≠ "obj" →
      w.codeW = .concrete (to_pascal_case w.name) w.method_codes ∧
        ∀ c ∈ w.method_codes, c.hasPub = true) := by
  constructor
  · intro hobj
    constructor
    · simp [LvWidget.codeW, hobj]
    · intro c hc
      obtain ⟨m, hm, hmc⟩ := mem_method_codes.mp hc
      rcases code_ok_shape hmc with ⟨hct, hc2⟩ | ⟨g, hg, hpub⟩
      · exfalso
        rw [LvFunc.is_ctor_case, hobj] at hct
        simp at hct
      · subst hg
        refine ⟨rfl, ?_⟩
        show g.isPub = false
        rw [hpub, hobj]
        simp
  · intro hobj
    constructor
    · have hb : (w.name == "obj") = false := by simp [hobj]
      simp [LvWidget.codeW, hb]
    · intro c hc
      obtain ⟨m, hm, hmc⟩ := mem_method_codes.mp hc
      rcases code_ok_shape hmc with ⟨hct, hc2⟩ | ⟨g, hg, hpub⟩
      · subst hc2; rfl
      · subst hg
        show g.isPub = true
        rw [hpub]
        simp [hobj]

/-- C9 witness: the root widget with `lv_obj_clean` and the `btn` widget
with its constructor. -/
theorem C9_root_widget_emission_witness :
    objW.codeW = .traitWidget
        ([.assocSpecialEvent, .assocPart, .fromRawReq] ++ objW.method_codes.map TraitItem.item) ∧
      btnWM.codeW = .concrete (to_pascal_case btnWM.name) btnWM.method_codes :=
  ⟨((C9_root_widget_emission objW).1 rfl).1,
   ((C9_root_widget_emission btnWM).2 (by decide)).1⟩
